import Mathlib

/-
Verification development for the image metadata utility
(src/MetaTagWebApp1.3.py).

The program's pure logic is shallowly embedded here:

* string sanitisation used by `analyze_image` (Python `str.strip`,
  `str.splitlines`, the markdown code-fence removal, and the
  control-character regex substitution);
* the exponential-backoff retry loop of `analyze_image`;
* the field-writing logic of `write_image_metadata` (JPEG/IPTC branch and
  PNG/text-chunk branch) with Python truthiness of `metadata.get(key)`;
* the `.cr2` RAW conversion `process_raw_cr2`;
* the batch orchestration `process_tagging` / `process_stripping` together
  with the session state (`st.session_state.processed_files`) and the
  on-disk set of output files;
* the ZIP bundling step of `main`.

External collaborators (the Gemini client, `json.loads`, PIL, rawpy, the
filesystem) are modelled as explicit environment parameters: each call into
them is a data field recording the outcome the library produced, while all
logic of the repository itself is translated from the source.
-/

/-! ## Python string primitives used by `analyze_image` -/

/-- Whitespace characters recognised by Python `str.strip()`
(characters for which `str.isspace()` holds). -/
def isPyWhitespace (c : Char) : Bool :=
  c == ' ' || c == '\t' || c == '\n' || c == '\r' || c == '\x0b' || c == '\x0c' ||
  c == '\x1c' || c == '\x1d' || c == '\x1e' || c == '\x1f' || c == '\x85' || c == '\xa0' ||
  c == ' ' ||
  (decide (0x2000 ≤ c.toNat) && decide (c.toNat ≤ 0x200a)) ||
  c == ' ' || c == ' ' || c == ' ' || c == ' ' || c == '　'

/-- Python `str.strip()` with no argument: drop leading and trailing
whitespace. -/
def pyStrip (s : String) : String :=
  String.mk (((s.data.dropWhile isPyWhitespace).reverse.dropWhile isPyWhitespace).reverse)

/-- Line-boundary characters of Python `str.splitlines()`
(besides the two-character boundary of carriage return followed by
line feed). -/
def isPyLineBreak (c : Char) : Bool :=
  c == '\n' || c == '\r' || c == '\x0b' || c == '\x0c' ||
  c == '\x1c' || c == '\x1d' || c == '\x1e' || c == '\x85' ||
  c == ' ' || c == ' '

/-- Worker for `pySplitlines`: `acc` is the current (reversed) line. -/
def pySplitlinesAux : List Char → List Char → List (List Char)
  | [], acc => if acc.isEmpty then [] else [acc.reverse]
  | '\r' :: '\n' :: rest, acc => acc.reverse :: pySplitlinesAux rest []
  | c :: rest, acc =>
    if isPyLineBreak c then acc.reverse :: pySplitlinesAux rest []
    else pySplitlinesAux rest (c :: acc)

/-- Python `str.splitlines()`: a trailing line boundary does not produce a
final empty line, and the empty string has no lines. -/
def pySplitlines (s : String) : List String :=
  (pySplitlinesAux s.data []).map String.mk

/-- Characters removed by the sanitising regex substitution of
`analyze_image`: the character classes x00-x1F, x7F-x9F, u2000-u200D
and uFEFF. -/
def isStrippedCtl (c : Char) : Bool :=
  decide (c.toNat ≤ 0x1f) ||
  (decide (0x7f ≤ c.toNat) && decide (c.toNat ≤ 0x9f)) ||
  (decide (0x2000 ≤ c.toNat) && decide (c.toNat ≤ 0x200d)) ||
  decide (c.toNat = 0xfeff)

/-- The control-character removal step of `analyze_image`. -/
def removeControlChars (s : String) : String :=
  String.mk (s.data.filter (fun c => !isStrippedCtl c))

/-- Python `str.lower()` (ASCII case mapping, which is all the source's
extension dispatch needs). -/
def pyLower (s : String) : String :=
  String.mk (s.data.map Char.toLower)

/-- Python `str.endswith(suffix)`. -/
def pyEndsWith (s suffix : String) : Bool :=
  suffix.data.isSuffixOf s.data

/-- Python `str.startswith(pre)`. -/
def pyStartsWith (s pre : String) : Bool :=
  pre.data.isPrefixOf s.data

/-- The markdown code-fence removal of `analyze_image`: when the (already
stripped) response starts with three backticks, drop the first line when its
strip starts with three backticks, drop the last line when its strip is
exactly three backticks, rejoin with newlines and strip again. -/
def stripCodeFences (s : String) : String :=
  if pyStartsWith s "\x60\x60\x60" then
    let lines := pySplitlines s
    let lines1 :=
      match lines with
      | [] => lines
      | l0 :: rest => if pyStartsWith (pyStrip l0) "\x60\x60\x60" then rest else lines
    let lines2 :=
      match lines1.getLast? with
      | some ll => if pyStrip ll = "\x60\x60\x60" then lines1.dropLast else lines1
      | none => lines1
    pyStrip (String.intercalate "\n" lines2)
  else s

/-- The full text pipeline `analyze_image` applies to a model response before
JSON parsing: strip, remove code fences, remove control characters. -/
def sanitizeResponse (t : String) : String :=
  removeControlChars (stripCodeFences (pyStrip t))

/-! ## The `analyze_image` retry loop

`model.generate_content` is the only statement of the loop body that can
raise the caught `Exception`; every non-raising iteration returns from the
function.  The call sequence is modelled by `ModelEnv.call : Nat → CallOutcome`
(the n-th call made), `json.loads` by `ModelEnv.jsonParse` (with `none` for
`json.JSONDecodeError`), and the two pre-loop failure points
(`encode_image` returning `None`; `genai.configure` / `GenerativeModel`
raising) by the booleans `encodeOk` and `configOk`. -/

/-- Outcome of one `model.generate_content` call: an exception, or a response
carrying `response.text`. -/
inductive CallOutcome where
  | raise
  | ok (text : String)

/-- Environment of one `analyze_image` run, covering all external calls. -/
structure ModelEnv (J : Type) where
  encodeOk : Bool
  configOk : Bool
  call : Nat → CallOutcome
  jsonParse : String → Option J

/-- Observable result of an `analyze_image` run: the returned value, the
number of `generate_content` calls made, and the `time.sleep` durations in
order. -/
structure RunResult (J : Type) where
  result : Option J
  calls : Nat
  sleeps : List Nat
deriving DecidableEq, Repr

/-- Body of a non-raising loop iteration of `analyze_image`, from
`if not response.text` down to the inner `try json.loads`. -/
def processResponse {J : Type} (jsonParse : String → Option J) (t : String) : Option J :=
  if t = "" then none
  else
    let s := sanitizeResponse t
    if s = "" then none
    else jsonParse s

/-- The `while retries <= max_retries` loop of `analyze_image`.  `remaining`
is `max_retries - retries`, so the loop guard always holds at entry; a raise
with `remaining = 0` is the `else: return None` arm, and a raise with
`remaining > 0` sleeps `2 ^ retries` seconds and increments `retries`. -/
def analyzeLoop {J : Type} (call : Nat → CallOutcome) (jsonParse : String → Option J) :
    Nat → Nat → RunResult J
  | retries, remaining =>
    match call retries with
    | CallOutcome.ok t => { result := processResponse jsonParse t, calls := 1, sleeps := [] }
    | CallOutcome.raise =>
      match remaining with
      | 0 => { result := none, calls := 1, sleeps := [] }
      | Nat.succ r =>
        let rest := analyzeLoop call jsonParse (retries + 1) r
        { result := rest.result, calls := rest.calls + 1, sleeps := 2 ^ retries :: rest.sleeps }

/-- `analyze_image(image_file, api_key, max_retries)`: fail with no model
call when encoding or client configuration fails, otherwise run the retry
loop starting at `retries = 0`. -/
def analyze_image {J : Type} (env : ModelEnv J) (maxRetries : Nat) : RunResult J :=
  if env.encodeOk then
    if env.configOk then analyzeLoop env.call env.jsonParse 0 maxRetries
    else { result := none, calls := 0, sleeps := [] }
  else { result := none, calls := 0, sleeps := [] }

/-! ## Filename handling: `os.path.splitext`, `os.path.basename`

Uploaded-file names are plain basenames (no directory separator inside
them), so `os.path.splitext` is modelled directly on the whole name. -/

/-- Index of the last dot of a character list, if any. -/
def lastDotPos : List Char → Option Nat
  | [] => none
  | c :: rest =>
    match lastDotPos rest with
    | some i => some (i + 1)
    | none => if c = '.' then some 0 else none

/-- `os.path.splitext`: split at the last dot, except that a name whose
characters before that dot are all dots (such as a leading-dot file) has no
extension. -/
def splitext (name : String) : String × String :=
  match lastDotPos name.data with
  | none => (name, "")
  | some i =>
    if (name.data.take i).all (fun c => c == '.') then (name, "")
    else (String.mk (name.data.take i), String.mk (name.data.drop i))

/-- Root part of `os.path.splitext`. -/
def splitextRoot (name : String) : String := (splitext name).1

/-- Extension part of `os.path.splitext` (including the dot, possibly
empty). -/
def splitextExt (name : String) : String := (splitext name).2

/-- `os.path.basename` on a POSIX path: the part after the last slash. -/
def basename (p : String) : String :=
  String.mk ((p.data.reverse.takeWhile (fun c => c != '/')).reverse)

/-! ## Python values and the metadata record

`json.loads` may put any JSON value under any key, so the record fields are
optional Python values; `PyVal` covers the value shapes relevant to
`write_image_metadata` (strings, lists of strings, `None`, booleans).
Python truthiness of `metadata.get(key)` is `truthyOpt`. -/

/-- A Python value as stored under a metadata key. -/
inductive PyVal where
  | vNone
  | vBool (b : Bool)
  | vStr (s : String)
  | vList (ks : List String)
deriving DecidableEq, Repr

/-- Python truthiness of a `PyVal`. -/
def PyVal.truthy : PyVal → Bool
  | PyVal.vNone => false
  | PyVal.vBool b => b
  | PyVal.vStr s => s != ""
  | PyVal.vList ks => !ks.isEmpty

/-- Python result of `value.encode('utf-8').decode('utf-8', errors='ignore')`:
the string itself for a string value, and an `AttributeError` (modelled as
`none`) for any non-string value. -/
def PyVal.asStr : PyVal → Option String
  | PyVal.vStr s => some s
  | _ => none

/-- Truthiness of `metadata.get(key)`: an absent key gives Python `None`. -/
def truthyOpt : Option PyVal → Bool
  | none => false
  | some v => v.truthy

/-- The metadata record parsed from the model response, keyed by the five
fixed keys of the system prompt; `none` is an absent key. -/
structure MetadataRecord where
  caption : Option PyVal
  keywords : Option PyVal
  byline : Option PyVal
  credit : Option PyVal
  source : Option PyVal
deriving DecidableEq, Repr

/-- The all-absent metadata record. -/
def MetadataRecord.empty : MetadataRecord :=
  { caption := none, keywords := none, byline := none, credit := none, source := none }

/-! ## `write_image_metadata`

The writer's observable output is the list of metadata fields it stores in
the output container, in the order the source sets them: IPTC fields for the
JPEG branch, text chunks for the PNG branch.  An exception inside the
`try` (in particular the `AttributeError` from calling `.encode` on a
truthy non-string value) is caught and turns the whole call into failure
(`none`), and `info.save_as` / `im.save` is never reached, so no output file
is produced in that case. -/

/-- A value stored in the output container: IPTC keyword lists are stored as
lists, everything else as a single string. -/
inductive FieldVal where
  | str (s : String)
  | list (ks : List String)
deriving DecidableEq, Repr

/-- One guarded scalar field write, shared by both branches:
`if metadata.get(key): container[field] = metadata[key].encode(...).decode(...)`.
Returns the fields written (none or one) or `none` when `.encode` raised. -/
def scalarField (fieldName : String) (v : Option PyVal) :
    Option (List (String × FieldVal)) :=
  match v with
  | none => some []
  | some val =>
    if val.truthy then
      match val.asStr with
      | some s => some [(fieldName, FieldVal.str s)]
      | none => none
    else some []

/-- The JPEG keywords write:
`if metadata.get("keywords") and isinstance(metadata["keywords"], list)`.
A truthy non-list value is silently skipped, never raising. -/
def jpegKeywords (v : Option PyVal) : List (String × FieldVal) :=
  if truthyOpt v then
    match v with
    | some (PyVal.vList ks) => [("keywords", FieldVal.list ks)]
    | _ => []
  else []

/-- The PNG keywords write: a truthy list is joined with a comma and a
space, any other truthy value is passed to `add_text` as-is (raising for a
non-string). -/
def pngKeywords (v : Option PyVal) : Option (List (String × FieldVal)) :=
  match v with
  | none => some []
  | some val =>
    if val.truthy then
      match val with
      | PyVal.vList ks => some [("keywords", FieldVal.str (String.intercalate ", " ks))]
      | _ =>
        match val.asStr with
        | some s => some [("keywords", FieldVal.str s)]
        | none => none
    else some []

/-- The JPEG/IPTC branch of `write_image_metadata`: caption, keywords,
byline, credit, source in source order. -/
def jpegBranch (m : MetadataRecord) : Option (List (String × FieldVal)) :=
  match scalarField "caption/abstract" m.caption with
  | none => none
  | some f1 =>
    let f2 := jpegKeywords m.keywords
    match scalarField "by-line" m.byline with
    | none => none
    | some f3 =>
      match scalarField "credit" m.credit with
      | none => none
      | some f4 =>
        match scalarField "source" m.source with
        | none => none
        | some f5 => some (f1 ++ f2 ++ f3 ++ f4 ++ f5)

/-- The PNG/text-chunk branch of `write_image_metadata`, same field order. -/
def pngBranch (m : MetadataRecord) : Option (List (String × FieldVal)) :=
  match scalarField "caption" m.caption with
  | none => none
  | some f1 =>
    match pngKeywords m.keywords with
    | none => none
    | some f2 =>
      match scalarField "byline" m.byline with
      | none => none
      | some f3 =>
        match scalarField "credit" m.credit with
        | none => none
        | some f4 =>
          match scalarField "source" m.source with
          | none => none
          | some f5 => some (f1 ++ f2 ++ f3 ++ f4 ++ f5)

/-- `write_image_metadata(image_file, output_path, metadata)`: dispatch on
the lowercased extension of the uploaded file's name; `.jpg`/`.jpeg` go to
the IPTC branch, `.png` to the text-chunk branch, everything else is
`return False`.  `some fields` means the output file was saved carrying
exactly `fields`; `none` means failure with no output file. -/
def write_image_metadata (filename : String) (m : MetadataRecord) :
    Option (List (String × FieldVal)) :=
  let ext := pyLower (splitextExt filename)
  if ext = ".jpg" ∨ ext = ".jpeg" then jpegBranch m
  else if ext = ".png" then pngBranch m
  else none

/-! ## `process_raw_cr2` and the stripping pipeline

`Pix` abstracts the numpy pixel array produced by
`rawpy.imread(path).postprocess()` (the no-argument call, i.e. rawpy's
default post-processing).  `RawEnv.postprocess` is that call's outcome
(`none` when `rawpy.imread` or `postprocess` raised) and `RawEnv.saveOk`
whether the final `img.save(output_path, "JPEG", quality=95)` succeeded. -/

/-- Outcomes of the external RAW calls made for one file. -/
structure RawEnv (Pix : Type) where
  postprocess : Option Pix
  saveOk : Bool

/-- An image file written by PIL's `save`, recording the encoder arguments
`process_raw_cr2` passes (format JPEG, quality). -/
inductive SavedImage (Pix : Type) where
  | jpegQ (pixels : Pix) (quality : Nat)
deriving DecidableEq, Repr

/-- `process_raw_cr2(image_file, output_path)`: `return False` when the RAW
library import failed (`RAW_SUCCESS` is false); otherwise decode with
default post-processing and save as JPEG at quality 95, any exception being
caught as failure. -/
def process_raw_cr2 {Pix : Type} (rawSuccess : Bool) (env : RawEnv Pix) :
    Option (SavedImage Pix) :=
  if rawSuccess then
    match env.postprocess with
    | some rgb => if env.saveOk then some (SavedImage.jpegQ rgb 95) else none
    | none => none
  else none

/-! ## Orchestration and session state

`AppState.fsPaths` is the set (as a list) of output-file paths existing on
disk; `AppState.processedFiles` is `st.session_state.processed_files`.
Per-file library outcomes are environment data: `UploadTag.analyzeResult` is
the value `analyze_image` returned for the file (over an abstract parsed
JSON type `J` with truthiness `jT`, since `process_tagging` tests
`if metadata and ...`), and `UploadTag.writeOk` whether
`write_image_metadata` succeeded when invoked (writing the output file
exactly then).  `StripFile.stdOk` likewise abstracts the PIL
decode/re-encode pipeline of `remove_metadata_image`. -/

/-- The disk paths and session list the orchestration manipulates. -/
structure AppState where
  fsPaths : List String
  processedFiles : List String
deriving DecidableEq, Repr

/-- One uploaded file in a tagging batch with its per-file pipeline
outcomes. -/
structure UploadTag (J : Type) where
  name : String
  analyzeResult : Option J
  writeOk : Bool

/-- One uploaded file in a stripping batch with its per-file pipeline
outcomes. -/
structure StripFile (Pix : Type) where
  name : String
  rawEnv : RawEnv Pix
  stdOk : Bool

/-- Loop body condition of `process_tagging`:
`if metadata and write_image_metadata(file, output_path, metadata)`, with
`output_path = os.path.join(output_dir, file.name)`.  `some path` is a
success producing that output file. -/
def tagFileOutput {J : Type} (outDir : String) (jT : J → Bool) (f : UploadTag J) :
    Option String :=
  match f.analyzeResult with
  | none => none
  | some md => if jT md && f.writeOk then some (outDir ++ "/" ++ f.name) else none

/-- Per-file step of `process_stripping`: a name ending (case-insensitively)
in `.cr2` goes to `process_raw_cr2` with the extension replaced by `.jpg`,
everything else to `remove_metadata_image` keeping its name. -/
def stripFileOutput {Pix : Type} (outDir : String) (rawSuccess : Bool)
    (f : StripFile Pix) : Option String :=
  if pyEndsWith (pyLower f.name) ".cr2" then
    let outputPath := outDir ++ "/" ++ splitextRoot f.name ++ ".jpg"
    match process_raw_cr2 rawSuccess f.rawEnv with
    | some _ => some outputPath
    | none => none
  else
    let outputPath := outDir ++ "/" ++ f.name
    if f.stdOk then some outputPath else none

/-- The `for file in files` loop of `process_tagging`: on success the output
file appears on disk and its path is appended to the local list. -/
def tagLoop {J : Type} (outDir : String) (jT : J → Bool) :
    List (UploadTag J) → AppState → List String → AppState × List String
  | [], st, processed => (st, processed)
  | f :: rest, st, processed =>
    match tagFileOutput outDir jT f with
    | some outputPath =>
        tagLoop outDir jT rest { st with fsPaths := outputPath :: st.fsPaths }
          (processed ++ [outputPath])
    | none => tagLoop outDir jT rest st processed

/-- `process_tagging(files, api_key)`: run the loop with an empty local
list, then assign it wholesale to `st.session_state.processed_files`. -/
def process_tagging {J : Type} (outDir : String) (jT : J → Bool)
    (files : List (UploadTag J)) (st : AppState) : AppState :=
  let r := tagLoop outDir jT files st []
  { fsPaths := r.1.fsPaths, processedFiles := r.2 }

/-- The `for file in files` loop of `process_stripping`. -/
def stripLoop {Pix : Type} (outDir : String) (rawSuccess : Bool) :
    List (StripFile Pix) → AppState → List String → AppState × List String
  | [], st, processed => (st, processed)
  | f :: rest, st, processed =>
    match stripFileOutput outDir rawSuccess f with
    | some outputPath =>
        stripLoop outDir rawSuccess rest { st with fsPaths := outputPath :: st.fsPaths }
          (processed ++ [outputPath])
    | none => stripLoop outDir rawSuccess rest st processed

/-- `process_stripping(files)`: run the loop with an empty local list, then
assign it wholesale to `st.session_state.processed_files`. -/
def process_stripping {Pix : Type} (outDir : String) (rawSuccess : Bool)
    (files : List (StripFile Pix)) (st : AppState) : AppState :=
  let r := stripLoop outDir rawSuccess files st []
  { fsPaths := r.1.fsPaths, processedFiles := r.2 }

/-- The Clear Outputs button handler: for every stored path, delete the file
when it exists, then empty the session list. -/
def clear_outputs (st : AppState) : AppState :=
  { fsPaths :=
      st.processedFiles.foldl
        (fun fs p => if fs.contains p then fs.filter (fun q => q != p) else fs)
        st.fsPaths,
    processedFiles := [] }

/-- The operations of `main` that touch the session state. -/
inductive AppOp (J Pix : Type) where
  | tagBatch (outDir : String) (jT : J → Bool) (files : List (UploadTag J))
  | stripBatch (outDir : String) (rawSuccess : Bool) (files : List (StripFile Pix))
  | clearOutputs

/-- Apply one operation to the session state. -/
def applyOp {J Pix : Type} : AppOp J Pix → AppState → AppState
  | AppOp.tagBatch outDir jT files, st => process_tagging outDir jT files st
  | AppOp.stripBatch outDir rawSuccess files, st => process_stripping outDir rawSuccess files st
  | AppOp.clearOutputs, st => clear_outputs st

/-- Every output path stored in the session list refers to an existing
file. -/
def invariantHolds (st : AppState) : Prop :=
  ∀ p ∈ st.processedFiles, p ∈ st.fsPaths

/-! ## The ZIP bundling step of `main`

When `len(st.session_state.processed_files) > 1` the download section writes
a ZIP whose members are, in order, the stored files under their basenames
(`zipf.write(file, os.path.basename(file))`); with at most one entry no ZIP
is produced. -/

/-- The `zipf.write` loop: member list as (source path, member name). -/
def buildZip (files : List String) : List (String × String) :=
  files.foldl (fun acc file => acc ++ [(file, basename file)]) []

/-- The guarded ZIP creation of `main`: `some members` when a ZIP archive is
produced, `none` otherwise. -/
def zipStep (processedFiles : List String) : Option (List (String × String)) :=
  if processedFiles.length > 1 then some (buildZip processedFiles) else none

/-! ## Concrete inputs used by the witness theorems -/

/-- A model client that raises a transient error on every call. -/
def envAllRaise : ModelEnv Unit :=
  { encodeOk := true, configOk := true, call := fun _ => CallOutcome.raise,
    jsonParse := fun _ => none }

/-- A model client whose first response is non-JSON text. -/
def envBadJson : ModelEnv Unit :=
  { encodeOk := true, configOk := true, call := fun _ => CallOutcome.ok "not json at all",
    jsonParse := fun _ => none }

/-- A record whose caption key is present but maps to the empty string. -/
def mCapEmpty : MetadataRecord :=
  { caption := some (PyVal.vStr ""), keywords := none, byline := none, credit := none,
    source := none }

/-- A record holding only a scalar keywords value. -/
def mKwScalar : MetadataRecord :=
  { MetadataRecord.empty with keywords := some (PyVal.vStr "calm") }

/-- A record holding only a list keywords value. -/
def mKwList : MetadataRecord :=
  { MetadataRecord.empty with keywords := some (PyVal.vList ["fairway", "calm"]) }

/-- A RAW file whose decode and save both succeed (pixel arrays modelled as
`Nat`). -/
def cr2File : StripFile Nat :=
  { name := "IMG_0001.CR2", rawEnv := { postprocess := some 7, saveOk := true },
    stdOk := true }

/-- A two-file tagging batch: the first file succeeds, the second fails
analysis. -/
def tagBatchEx : List (UploadTag Unit) :=
  [ { name := "a.jpg", analyzeResult := some (), writeOk := true },
    { name := "b.jpg", analyzeResult := none, writeOk := true } ]

/-- The empty session state. -/
def stInit : AppState := { fsPaths := [], processedFiles := [] }

/-- An operation sequence: one tagging batch, then Clear Outputs. -/
def opsEx : List (AppOp Unit Nat) :=
  [AppOp.tagBatch "t/tagged_images" (fun _ => true) tagBatchEx, AppOp.clearOutputs]

/-! ## Claim theorems -/

/-- Claim C1: with the default `max_retries = 5` and a model client raising
a transient exception on every call, `analyze_image` makes exactly 6
attempts (1 initial + 5 retries), sleeping the strictly increasing
`2 ^ attempt` schedule 1, 2, 4, 8, 16 seconds between consecutive attempts,
and then returns failure. -/
theorem analyze_image_backoff_exhaustion (J : Type) (env : ModelEnv J)
    (hraise : ∀ n, env.call n = CallOutcome.raise)
    (henc : env.encodeOk = true) (hcfg : env.configOk = true) :
    analyze_image env 5 = { result := none, calls := 6, sleeps := [1, 2, 4, 8, 16] } := by
  simp [analyze_image, henc, hcfg, analyzeLoop, hraise]

/-- Witness for C1: the always-raising client makes exactly 6 calls and
sleeps 1, 2, 4, 8, 16 seconds. -/
theorem analyze_image_backoff_exhaustion_witness :
    analyze_image envAllRaise 5 = { result := none, calls := 6, sleeps := [1, 2, 4, 8, 16] } :=
  analyze_image_backoff_exhaustion Unit envAllRaise (fun _ => rfl) rfl rfl

/-- Claim C2: a response whose text is empty, empty after fence-stripping
and sanitisation, or rejected by strict JSON parsing makes `analyze_image`
return failure on that very attempt — one call, no retry, no sleep; and a
failed image encoding or client configuration returns failure before any
model call. -/
theorem analyze_image_terminal_failures (J : Type) (env : ModelEnv J) (t : String) :
    (env.encodeOk = true → env.configOk = true → env.call 0 = CallOutcome.ok t →
      (t = "" ∨ sanitizeResponse t = "" ∨ env.jsonParse (sanitizeResponse t) = none) →
      analyze_image env 5 = { result := none, calls := 1, sleeps := [] }) ∧
    (env.encodeOk = false →
      analyze_image env 5 = { result := none, calls := 0, sleeps := [] }) ∧
    (env.encodeOk = true → env.configOk = false →
      analyze_image env 5 = { result := none, calls := 0, sleeps := [] }) := by
  refine ⟨?_, ?_, ?_⟩
  · intro he hc hcall hfail
    have hbody : processResponse env.jsonParse t = none := by
      rcases hfail with h | h | h
      · simp [processResponse, h]
      · unfold processResponse
        split
        · rfl
        · simp [h]
      · unfold processResponse
        split
        · rfl
        · simp only []
          split
          · rfl
          · exact h
    simp [analyze_image, he, hc, analyzeLoop, hcall, hbody]
  · intro he
    simp [analyze_image, he]
  · intro he hc
    simp [analyze_image, he, hc]

/-- Witness for C2: the response `"not json at all"` fails on the first
attempt with no retry and no sleep. -/
theorem analyze_image_terminal_failures_witness :
    analyze_image envBadJson 5 = { result := none, calls := 1, sleeps := [] } :=
  (analyze_image_terminal_failures Unit envBadJson "not json at all").1 rfl rfl rfl
    (Or.inr (Or.inr rfl))

/-- The tagging loop appends to its accumulator, in order, exactly the
output paths of the successful files. -/
theorem tagLoop_snd (J : Type) (outDir : String) (jT : J → Bool) :
    ∀ (files : List (UploadTag J)) (st : AppState) (processed : List String),
      (tagLoop outDir jT files st processed).2
        = processed ++ files.filterMap (tagFileOutput outDir jT) := by
  intro files
  induction files with
  | nil => intro st processed; simp [tagLoop]
  | cons f rest ih =>
    intro st processed
    cases heq : tagFileOutput outDir jT f with
    | none => simp [tagLoop, heq, ih]
    | some p => simp [tagLoop, heq, ih]

/-- Paths on disk before the tagging loop, and the outputs of its successful
files, are on disk after it. -/
theorem tagLoop_fs (J : Type) (outDir : String) (jT : J → Bool) :
    ∀ (files : List (UploadTag J)) (st : AppState) (processed : List String) (p : String),
      (p ∈ st.fsPaths ∨ p ∈ files.filterMap (tagFileOutput outDir jT)) →
      p ∈ (tagLoop outDir jT files st processed).1.fsPaths := by
  intro files
  induction files with
  | nil =>
    intro st processed p hp
    rcases hp with hp | hp
    · simpa [tagLoop] using hp
    · simp at hp
  | cons f rest ih =>
    intro st processed p hp
    cases heq : tagFileOutput outDir jT f with
    | none =>
      rw [tagLoop, heq]
      apply ih
      rcases hp with hp | hp
      · exact Or.inl hp
      · rw [List.filterMap_cons_none heq] at hp
        exact Or.inr hp
    | some q =>
      rw [tagLoop, heq]
      apply ih
      rcases hp with hp | hp
      · exact Or.inl (List.mem_cons_of_mem q hp)
      · rw [List.filterMap_cons_some heq] at hp
        rcases List.mem_cons.mp hp with hp | hp
        · exact Or.inl (by rw [hp]; exact List.mem_cons_self q st.fsPaths)
        · exact Or.inr hp

/-- The stripping loop appends to its accumulator, in order, exactly the
output paths of the successful files. -/
theorem stripLoop_snd (Pix : Type) (outDir : String) (rawSuccess : Bool) :
    ∀ (files : List (StripFile Pix)) (st : AppState) (processed : List String),
      (stripLoop outDir rawSuccess files st processed).2
        = processed ++ files.filterMap (stripFileOutput outDir rawSuccess) := by
  intro files
  induction files with
  | nil => intro st processed; simp [stripLoop]
  | cons f rest ih =>
    intro st processed
    cases heq : stripFileOutput outDir rawSuccess f with
    | none => simp [stripLoop, heq, ih]
    | some p => simp [stripLoop, heq, ih]

/-- Paths on disk before the stripping loop, and the outputs of its
successful files, are on disk after it. -/
theorem stripLoop_fs (Pix : Type) (outDir : String) (rawSuccess : Bool) :
    ∀ (files : List (StripFile Pix)) (st : AppState) (processed : List String) (p : String),
      (p ∈ st.fsPaths ∨ p ∈ files.filterMap (stripFileOutput outDir rawSuccess)) →
      p ∈ (stripLoop outDir rawSuccess files st processed).1.fsPaths := by
  intro files
  induction files with
  | nil =>
    intro st processed p hp
    rcases hp with hp | hp
    · simpa [stripLoop] using hp
    · simp at hp
  | cons f rest ih =>
    intro st processed p hp
    cases heq : stripFileOutput outDir rawSuccess f with
    | none =>
      rw [stripLoop, heq]
      apply ih
      rcases hp with hp | hp
      · exact Or.inl hp
      · rw [List.filterMap_cons_none heq] at hp
        exact Or.inr hp
    | some q =>
      rw [stripLoop, heq]
      apply ih
      rcases hp with hp | hp
      · exact Or.inl (List.mem_cons_of_mem q hp)
      · rw [List.filterMap_cons_some heq] at hp
        rcases List.mem_cons.mp hp with hp | hp
        · exact Or.inl (by rw [hp]; exact List.mem_cons_self q st.fsPaths)
        · exact Or.inr hp

/-- Claim C3: both batch processors walk the uploaded files strictly in
upload order, append an output path only for files whose pipeline succeeded
(failed files contribute nothing and do not abort the loop), and assign the
new sequence to the session wholesale — the result is independent of any
prior `processed_files` value in the state. -/
theorem batch_results_order_and_replacement (J Pix : Type) (jT : J → Bool)
    (outDirT outDirS : String) (tfiles : List (UploadTag J)) (sfiles : List (StripFile Pix))
    (rawSuccess : Bool) (st st2 : AppState) :
    (process_tagging outDirT jT tfiles st).processedFiles
        = tfiles.filterMap (tagFileOutput outDirT jT) ∧
    (process_stripping outDirS rawSuccess sfiles st2).processedFiles
        = sfiles.filterMap (stripFileOutput outDirS rawSuccess) := by
  constructor
  · simp [process_tagging, tagLoop_snd]
  · simp [process_stripping, stripLoop_snd]

/-- A finished tagging batch leaves every stored path on disk. -/
theorem process_tagging_inv (J : Type) (outDir : String) (jT : J → Bool)
    (files : List (UploadTag J)) (st : AppState) :
    invariantHolds (process_tagging outDir jT files st) := by
  intro p hp
  simp only [process_tagging] at hp ⊢
  rw [tagLoop_snd] at hp
  simp only [List.nil_append] at hp
  exact tagLoop_fs J outDir jT files st [] p (Or.inr hp)

/-- A finished stripping batch leaves every stored path on disk. -/
theorem process_stripping_inv (Pix : Type) (outDir : String) (rawSuccess : Bool)
    (files : List (StripFile Pix)) (st : AppState) :
    invariantHolds (process_stripping outDir rawSuccess files st) := by
  intro p hp
  simp only [process_stripping] at hp ⊢
  rw [stripLoop_snd] at hp
  simp only [List.nil_append] at hp
  exact stripLoop_fs Pix outDir rawSuccess files st [] p (Or.inr hp)

/-- Clear Outputs empties the stored list, so the invariant holds
trivially afterwards. -/
theorem clear_outputs_inv (st : AppState) : invariantHolds (clear_outputs st) := by
  intro p hp
  simp [clear_outputs] at hp

/-- Claim C9: across any sequence of batch completions and Clear Outputs
operations, every output path stored in the session's `processed_files`
list refers to a file that exists on disk — no operation leaves a stored
path dangling. -/
theorem processed_files_exist_invariant (J Pix : Type) (ops : List (AppOp J Pix)) :
    ∀ (st : AppState), invariantHolds st →
      invariantHolds (ops.foldl (fun s op => applyOp op s) st) := by
  induction ops with
  | nil => intro st h; simpa using h
  | cons op rest ih =>
    intro st h
    simp only [List.foldl_cons]
    apply ih
    cases op with
    | tagBatch outDir jT files => exact process_tagging_inv J outDir jT files st
    | stripBatch outDir rawSuccess files => exact process_stripping_inv Pix outDir rawSuccess files st
    | clearOutputs => exact clear_outputs_inv st

/-- Witness for C9: a tagging batch followed by Clear Outputs, run from the
empty session, keeps the invariant. -/
theorem processed_files_exist_invariant_witness :
    invariantHolds (opsEx.foldl (fun s op => applyOp op s) stInit) :=
  processed_files_exist_invariant Unit Nat opsEx stInit (by intro p hp; simp [stInit] at hp)

/-- The names written by one guarded scalar field: the field name exactly
when the value is truthy. -/
theorem scalarField_names (n : String) (v : Option PyVal) (l : List (String × FieldVal))
    (h : scalarField n v = some l) :
    l.map Prod.fst = if truthyOpt v = true then [n] else [] := by
  cases v with
  | none =>
    simp [scalarField] at h
    simp [← h, truthyOpt]
  | some val =>
    cases val with
    | vNone =>
      simp [scalarField, PyVal.truthy] at h
      simp [← h, truthyOpt, PyVal.truthy]
    | vBool b =>
      cases b with
      | false =>
        simp [scalarField, PyVal.truthy] at h
        simp [← h, truthyOpt, PyVal.truthy]
      | true =>
        simp [scalarField, PyVal.truthy, PyVal.asStr] at h
    | vStr s =>
      by_cases hs : s = ""
      · subst hs
        simp [scalarField, PyVal.truthy] at h
        simp [← h, truthyOpt, PyVal.truthy]
      · simp [scalarField, PyVal.truthy, PyVal.asStr, hs] at h
        simp [← h, truthyOpt, PyVal.truthy, hs]
    | vList ks =>
      by_cases hk : ks.isEmpty
      · simp [scalarField, PyVal.truthy, hk] at h
        simp [← h, truthyOpt, PyVal.truthy, hk]
      · simp [scalarField, PyVal.truthy, PyVal.asStr, hk] at h

/-- The JPEG keywords write stores a field exactly for a non-empty list
value, and stores no other field name. -/
theorem jpegKeywords_names (v : Option PyVal) :
    ((("keywords" : String) ∈ (jpegKeywords v).map Prod.fst) ↔
      ∃ ks, v = some (PyVal.vList ks) ∧ ks ≠ []) ∧
    (∀ x : String, x ∈ (jpegKeywords v).map Prod.fst → x = "keywords") := by
  cases v with
  | none => simp [jpegKeywords, truthyOpt]
  | some val =>
    cases val with
    | vNone => simp [jpegKeywords, truthyOpt, PyVal.truthy]
    | vBool b => cases b <;> simp [jpegKeywords, truthyOpt, PyVal.truthy]
    | vStr s => by_cases hs : s = "" <;> simp [jpegKeywords, truthyOpt, PyVal.truthy, hs]
    | vList ks =>
      by_cases hk : ks.isEmpty
      · have : ks = [] := List.isEmpty_iff.mp hk
        subst this
        simp [jpegKeywords, truthyOpt, PyVal.truthy]
      · have : ks ≠ [] := by simpa [List.isEmpty_iff] using hk
        simp [jpegKeywords, truthyOpt, PyVal.truthy, hk, this]

/-- The names written by the PNG keywords write: the field exactly when the
value is truthy. -/
theorem pngKeywords_names (v : Option PyVal) (l : List (String × FieldVal))
    (h : pngKeywords v = some l) :
    l.map Prod.fst = if truthyOpt v = true then ["keywords"] else [] := by
  cases v with
  | none =>
    simp [pngKeywords] at h
    simp [← h, truthyOpt]
  | some val =>
    cases val with
    | vNone =>
      simp [pngKeywords, PyVal.truthy] at h
      simp [← h, truthyOpt, PyVal.truthy]
    | vBool b =>
      cases b with
      | false =>
        simp [pngKeywords, PyVal.truthy] at h
        simp [← h, truthyOpt, PyVal.truthy]
      | true =>
        simp [pngKeywords, PyVal.truthy, PyVal.asStr] at h
    | vStr s =>
      by_cases hs : s = ""
      · subst hs
        simp [pngKeywords, PyVal.truthy] at h
        simp [← h, truthyOpt, PyVal.truthy]
      · simp [pngKeywords, PyVal.truthy, PyVal.asStr, hs] at h
        simp [← h, truthyOpt, PyVal.truthy, hs]
    | vList ks =>
      by_cases hk : ks.isEmpty
      · simp [pngKeywords, PyVal.truthy, hk] at h
        simp [← h, truthyOpt, PyVal.truthy, hk]
      · simp [pngKeywords, PyVal.truthy, hk] at h
        simp [← h, truthyOpt, PyVal.truthy, hk]

/-- Membership in a conditional singleton list. -/
theorem mem_if_singleton (x n : String) (c : Bool) :
    (x ∈ if c = true then [n] else ([] : List String)) ↔ (c = true ∧ x = n) := by
  cases c <;> simp

/-- A successful JPEG branch decomposes into its five per-field writes. -/
theorem jpegBranch_decomp (m : MetadataRecord) (fs : List (String × FieldVal))
    (h : jpegBranch m = some fs) :
    ∃ f1 f3 f4 f5,
      scalarField "caption/abstract" m.caption = some f1 ∧
      scalarField "by-line" m.byline = some f3 ∧
      scalarField "credit" m.credit = some f4 ∧
      scalarField "source" m.source = some f5 ∧
      fs = f1 ++ jpegKeywords m.keywords ++ f3 ++ f4 ++ f5 := by
  unfold jpegBranch at h
  cases h1 : scalarField "caption/abstract" m.caption with
  | none => rw [h1] at h; exact absurd h (by simp)
  | some f1 =>
    rw [h1] at h
    cases h3 : scalarField "by-line" m.byline with
    | none => rw [h3] at h; exact absurd h (by simp)
    | some f3 =>
      rw [h3] at h
      cases h4 : scalarField "credit" m.credit with
      | none => rw [h4] at h; exact absurd h (by simp)
      | some f4 =>
        rw [h4] at h
        cases h5 : scalarField "source" m.source with
        | none => rw [h5] at h; exact absurd h (by simp)
        | some f5 =>
          rw [h5] at h
          simp only [Option.some.injEq] at h
          exact ⟨f1, f3, f4, f5, rfl, rfl, rfl, rfl, h.symm⟩

/-- A successful PNG branch decomposes into its five per-field writes. -/
theorem pngBranch_decomp (m : MetadataRecord) (fs : List (String × FieldVal))
    (h : pngBranch m = some fs) :
    ∃ f1 f2 f3 f4 f5,
      scalarField "caption" m.caption = some f1 ∧
      pngKeywords m.keywords = some f2 ∧
      scalarField "byline" m.byline = some f3 ∧
      scalarField "credit" m.credit = some f4 ∧
      scalarField "source" m.source = some f5 ∧
      fs = f1 ++ f2 ++ f3 ++ f4 ++ f5 := by
  unfold pngBranch at h
  cases h1 : scalarField "caption" m.caption with
  | none => rw [h1] at h; exact absurd h (by simp)
  | some f1 =>
    rw [h1] at h
    cases h2 : pngKeywords m.keywords with
    | none => rw [h2] at h; exact absurd h (by simp)
    | some f2 =>
      rw [h2] at h
      cases h3 : scalarField "byline" m.byline with
      | none => rw [h3] at h; exact absurd h (by simp)
      | some f3 =>
        rw [h3] at h
        cases h4 : scalarField "credit" m.credit with
        | none => rw [h4] at h; exact absurd h (by simp)
        | some f4 =>
          rw [h4] at h
          cases h5 : scalarField "source" m.source with
          | none => rw [h5] at h; exact absurd h (by simp)
          | some f5 =>
            rw [h5] at h
            simp only [Option.some.injEq] at h
            exact ⟨f1, f2, f3, f4, f5, rfl, rfl, rfl, rfl, rfl, h.symm⟩

/-- Membership in a five-fold append. -/
theorem mem_five_append (x : String) (l1 l2 l3 l4 l5 : List String) :
    x ∈ l1 ++ l2 ++ l3 ++ l4 ++ l5 ↔ x ∈ l1 ∨ x ∈ l2 ∨ x ∈ l3 ∨ x ∈ l4 ∨ x ∈ l5 := by
  simp [List.mem_append, or_assoc]

/-- Claim C4 (amended): on a successful write, a metadata field appears in
the output container exactly when its key is present with a truthy value —
for JPEG keywords, additionally only when that value is a list — so a key
that is absent, or present with a falsy value, produces no corresponding
IPTC field or text chunk. -/
theorem write_fields_truthy_exactly (m : MetadataRecord) (fs : List (String × FieldVal)) :
    (write_image_metadata "img.jpg" m = some fs →
      ((("caption/abstract" : String) ∈ fs.map Prod.fst) ↔ truthyOpt m.caption = true) ∧
      ((("keywords" : String) ∈ fs.map Prod.fst) ↔
        ∃ ks, m.keywords = some (PyVal.vList ks) ∧ ks ≠ []) ∧
      ((("by-line" : String) ∈ fs.map Prod.fst) ↔ truthyOpt m.byline = true) ∧
      ((("credit" : String) ∈ fs.map Prod.fst) ↔ truthyOpt m.credit = true) ∧
      ((("source" : String) ∈ fs.map Prod.fst) ↔ truthyOpt m.source = true)) ∧
    (write_image_metadata "img.png" m = some fs →
      ((("caption" : String) ∈ fs.map Prod.fst) ↔ truthyOpt m.caption = true) ∧
      ((("keywords" : String) ∈ fs.map Prod.fst) ↔ truthyOpt m.keywords = true) ∧
      ((("byline" : String) ∈ fs.map Prod.fst) ↔ truthyOpt m.byline = true) ∧
      ((("credit" : String) ∈ fs.map Prod.fst) ↔ truthyOpt m.credit = true) ∧
      ((("source" : String) ∈ fs.map Prod.fst) ↔ truthyOpt m.source = true)) := by
  constructor
  · intro h
    have hj : jpegBranch m = some fs := by
      have hc : (pyLower (splitextExt "img.jpg") = ".jpg" ∨
          pyLower (splitextExt "img.jpg") = ".jpeg") := by decide
      simpa [write_image_metadata, hc] using h
    obtain ⟨f1, f3, f4, f5, h1, h3, h4, h5, hfs⟩ := jpegBranch_decomp m fs hj
    have hn1 := scalarField_names "caption/abstract" m.caption f1 h1
    have hn3 := scalarField_names "by-line" m.byline f3 h3
    have hn4 := scalarField_names "credit" m.credit f4 h4
    have hn5 := scalarField_names "source" m.source f5 h5
    have hkw := jpegKeywords_names m.keywords
    have hnames : fs.map Prod.fst =
        (if truthyOpt m.caption = true then ["caption/abstract"] else []) ++
        (jpegKeywords m.keywords).map Prod.fst ++
        (if truthyOpt m.byline = true then ["by-line"] else []) ++
        (if truthyOpt m.credit = true then ["credit"] else []) ++
        (if truthyOpt m.source = true then ["source"] else []) := by
      rw [hfs]
      simp only [List.map_append, hn1, hn3, hn4, hn5]
    have hknotc : ¬ (("caption/abstract" : String) ∈ (jpegKeywords m.keywords).map Prod.fst) := by
      intro hx
      have := hkw.2 _ hx
      simp at this
    have hknotb : ¬ (("by-line" : String) ∈ (jpegKeywords m.keywords).map Prod.fst) := by
      intro hx
      have := hkw.2 _ hx
      simp at this
    have hknotcr : ¬ (("credit" : String) ∈ (jpegKeywords m.keywords).map Prod.fst) := by
      intro hx
      have := hkw.2 _ hx
      simp at this
    have hknots : ¬ (("source" : String) ∈ (jpegKeywords m.keywords).map Prod.fst) := by
      intro hx
      have := hkw.2 _ hx
      simp at this
    refine ⟨?_, ?_, ?_, ?_, ?_⟩
    · rw [hnames, mem_five_append]
      simp [mem_if_singleton, hknotc]
    · rw [hnames, mem_five_append]
      simp [mem_if_singleton, hkw.1]
    · rw [hnames, mem_five_append]
      simp [mem_if_singleton, hknotb]
    · rw [hnames, mem_five_append]
      simp [mem_if_singleton, hknotcr]
    · rw [hnames, mem_five_append]
      simp [mem_if_singleton, hknots]
  · intro h
    have hp : pngBranch m = some fs := by
      have hc : ¬ (pyLower (splitextExt "img.png") = ".jpg" ∨
          pyLower (splitextExt "img.png") = ".jpeg") := by decide
      have hc2 : pyLower (splitextExt "img.png") = ".png" := by decide
      simpa [write_image_metadata, hc, hc2] using h
    obtain ⟨f1, f2, f3, f4, f5, h1, h2, h3, h4, h5, hfs⟩ := pngBranch_decomp m fs hp
    have hn1 := scalarField_names "caption" m.caption f1 h1
    have hn2 := pngKeywords_names m.keywords f2 h2
    have hn3 := scalarField_names "byline" m.byline f3 h3
    have hn4 := scalarField_names "credit" m.credit f4 h4
    have hn5 := scalarField_names "source" m.source f5 h5
    have hnames : fs.map Prod.fst =
        (if truthyOpt m.caption = true then ["caption"] else []) ++
        (if truthyOpt m.keywords = true then ["keywords"] else []) ++
        (if truthyOpt m.byline = true then ["byline"] else []) ++
        (if truthyOpt m.credit = true then ["credit"] else []) ++
        (if truthyOpt m.source = true then ["source"] else []) := by
      rw [hfs]
      simp only [List.map_append, hn1, hn2, hn3, hn4, hn5]
    refine ⟨?_, ?_, ?_, ?_, ?_⟩ <;>
      rw [hnames, mem_five_append] <;> simp [mem_if_singleton]

/-- Witness for the amended C4: a list-valued keywords key is written by
the JPEG branch. -/
theorem write_fields_truthy_exactly_witness :
    (("keywords" : String) ∈
        ([("keywords", FieldVal.list ["fairway", "calm"])] : List (String × FieldVal)).map Prod.fst) ↔
      ∃ ks, mKwList.keywords = some (PyVal.vList ks) ∧ ks ≠ [] :=
  ((write_fields_truthy_exactly mKwList [("keywords", FieldVal.list ["fairway", "calm"])]).1
    (by decide)).2.1

/-- Counterexample to C4 as stated: a record whose caption key IS present
(with the empty string) produces a successful JPEG write containing no
field at all, so the writer does not populate every present key. -/
theorem write_present_key_not_written :
    mCapEmpty.caption = some (PyVal.vStr "") ∧
    write_image_metadata "photo.jpg" mCapEmpty = some [] := by
  constructor
  · rfl
  · decide

/-- Claim C5: the writer dispatches on the lowercased extension into exactly
two supported branches — `.jpg`/`.jpeg` to the IPTC branch and `.png` to the
text-chunk branch — and any other extension fails, producing no output. -/
theorem write_dispatch_two_branches (filename : String) (m : MetadataRecord) :
    (pyLower (splitextExt filename) = ".jpg" ∨ pyLower (splitextExt filename) = ".jpeg" →
      write_image_metadata filename m = jpegBranch m) ∧
    (pyLower (splitextExt filename) = ".png" →
      write_image_metadata filename m = pngBranch m) ∧
    (¬ (pyLower (splitextExt filename) = ".jpg" ∨ pyLower (splitextExt filename) = ".jpeg") →
      pyLower (splitextExt filename) ≠ ".png" →
      write_image_metadata filename m = none) := by
  refine ⟨?_, ?_, ?_⟩
  · intro h
    simp [write_image_metadata, h]
  · intro h
    simp [write_image_metadata, h]
  · intro h1 h2
    simp only [write_image_metadata]
    rw [if_neg h1, if_neg h2]

/-- Witness for C5: a `.gif` upload makes the writer fail with no output. -/
theorem write_dispatch_two_branches_witness :
    write_image_metadata "photo.gif" MetadataRecord.empty = none :=
  (write_dispatch_two_branches "photo.gif" MetadataRecord.empty).2.2 (by decide) (by decide)

/-- Claim C6: the PNG branch writes a keywords field both for a non-empty
list (joined by a comma and a space) and for a non-empty scalar string
(passed through as-is), whereas the JPEG branch writes keywords only for a
list and silently skips the scalar. -/
theorem png_jpeg_keywords_scalar_asymmetry (s : String) (ks : List String)
    (hs : s ≠ "") (hks : ks ≠ []) :
    write_image_metadata "img.png" { MetadataRecord.empty with keywords := some (PyVal.vStr s) }
      = some [("keywords", FieldVal.str s)] ∧
    write_image_metadata "img.png" { MetadataRecord.empty with keywords := some (PyVal.vList ks) }
      = some [("keywords", FieldVal.str (String.intercalate ", " ks))] ∧
    write_image_metadata "img.jpg" { MetadataRecord.empty with keywords := some (PyVal.vStr s) }
      = some [] ∧
    write_image_metadata "img.jpg" { MetadataRecord.empty with keywords := some (PyVal.vList ks) }
      = some [("keywords", FieldVal.list ks)] := by
  have hk2 : ks.isEmpty = false := by simpa [List.isEmpty_iff] using hks
  have hcp : pyLower (splitextExt "img.png") = ".png" := by decide
  have hcpn : ¬ (pyLower (splitextExt "img.png") = ".jpg" ∨
      pyLower (splitextExt "img.png") = ".jpeg") := by decide
  have hcj : (pyLower (splitextExt "img.jpg") = ".jpg" ∨
      pyLower (splitextExt "img.jpg") = ".jpeg") := by decide
  refine ⟨?_, ?_, ?_, ?_⟩
  · simp [write_image_metadata, hcp, hcpn, pngBranch, scalarField, pngKeywords,
      MetadataRecord.empty, PyVal.truthy, PyVal.asStr, hs]
  · simp [write_image_metadata, hcp, hcpn, pngBranch, scalarField, pngKeywords,
      MetadataRecord.empty, PyVal.truthy, PyVal.asStr, hk2]
  · simp [write_image_metadata, hcj, jpegBranch, scalarField, jpegKeywords,
      MetadataRecord.empty, truthyOpt, PyVal.truthy, PyVal.asStr, hs]
  · simp [write_image_metadata, hcj, jpegBranch, scalarField, jpegKeywords,
      MetadataRecord.empty, truthyOpt, PyVal.truthy, PyVal.asStr, hk2]

/-- Witness for C6: the scalar keywords value `"calm"` is written by the
PNG branch and skipped by the JPEG branch. -/
theorem png_jpeg_keywords_scalar_asymmetry_witness :
    write_image_metadata "img.png" { MetadataRecord.empty with keywords := some (PyVal.vStr "calm") }
      = some [("keywords", FieldVal.str "calm")] ∧
    write_image_metadata "img.jpg" { MetadataRecord.empty with keywords := some (PyVal.vStr "calm") }
      = some [] := by
  have h := png_jpeg_keywords_scalar_asymmetry "calm" ["fairway", "calm"]
    (by decide) (by decide)
  exact ⟨h.1, h.2.2.1⟩

/-- Claim C7: an upload whose name ends case-insensitively in `.cr2` is
routed by the stripping pipeline to `process_raw_cr2`, which fails outright
when the RAW library is unavailable, and otherwise decodes with the RAW
pipeline's default post-processing and saves a new JPEG at fixed quality 95
under the name with its extension replaced by `.jpg`. -/
theorem strip_cr2_raw_path (Pix : Type) (outDir : String) (f : StripFile Pix)
    (h : pyEndsWith (pyLower f.name) ".cr2" = true) :
    (stripFileOutput outDir false f = none) ∧
    (process_raw_cr2 false f.rawEnv = none) ∧
    (∀ rgb, f.rawEnv.postprocess = some rgb → f.rawEnv.saveOk = true →
      process_raw_cr2 true f.rawEnv = some (SavedImage.jpegQ rgb 95) ∧
      stripFileOutput outDir true f
        = some (outDir ++ "/" ++ splitextRoot f.name ++ ".jpg")) ∧
    (process_raw_cr2 true f.rawEnv = none → stripFileOutput outDir true f = none) := by
  refine ⟨?_, ?_, ?_, ?_⟩
  · simp [stripFileOutput, h, process_raw_cr2]
  · simp [process_raw_cr2]
  · intro rgb hpp hsave
    constructor
    · simp [process_raw_cr2, hpp, hsave]
    · simp [stripFileOutput, h, process_raw_cr2, hpp, hsave]
  · intro hfail
    simp [stripFileOutput, h, hfail]

/-- Witness for C7: `IMG_0001.CR2` fails without the RAW library and
otherwise becomes a quality-95 JPEG under `IMG_0001.jpg`. -/
theorem strip_cr2_raw_path_witness :
    stripFileOutput "out" false cr2File = none ∧
    process_raw_cr2 true cr2File.rawEnv = some (SavedImage.jpegQ 7 95) ∧
    stripFileOutput "out" true cr2File
      = some ("out" ++ "/" ++ splitextRoot cr2File.name ++ ".jpg") := by
  have h := strip_cr2_raw_path Nat "out" cr2File (by decide)
  exact ⟨h.1, (h.2.2.1 7 rfl rfl).1, (h.2.2.1 7 rfl rfl).2⟩

/-- The ZIP member loop lists, in order, each stored file under its
basename. -/
theorem buildZip_eq_map (files : List String) :
    buildZip files = files.map (fun p => (p, basename p)) := by
  have haux : ∀ (fs : List String) (acc : List (String × String)),
      fs.foldl (fun acc file => acc ++ [(file, basename file)]) acc
        = acc ++ fs.map (fun p => (p, basename p)) := by
    intro fs
    induction fs with
    | nil => intro acc; simp
    | cons f rest ih => intro acc; simp [ih]
  simpa using haux files []

/-- Claim C8: a ZIP archive is produced exactly when the batch's result
sequence has more than one entry (one output alone yields no ZIP), and it
contains exactly the batch's successful output files, each member named by
the output file's basename. -/
theorem zip_archive_iff_multiple (files : List String) :
    (files.length > 1 → zipStep files = some (files.map (fun p => (p, basename p)))) ∧
    (files.length ≤ 1 → zipStep files = none) := by
  constructor
  · intro h
    simp [zipStep, h, buildZip_eq_map]
  · intro h
    simp [zipStep, Nat.not_lt.mpr h]

/-- Witness for C8: two outputs produce a two-member archive under their
basenames. -/
theorem zip_archive_iff_multiple_witness :
    zipStep ["t/a.jpg", "t/b.png"] = some [("t/a.jpg", "a.jpg"), ("t/b.png", "b.png")] := by
  have h := (zip_archive_iff_multiple ["t/a.jpg", "t/b.png"]).1 (by decide)
  rw [h]
  decide

/-- A falsy present value makes the guarded scalar write behave as an
absent key. -/
theorem scalarField_falsy (n : String) (v : PyVal) (hv : v.truthy = false) :
    scalarField n (some v) = scalarField n none := by
  simp [scalarField, hv]

/-- A falsy present value makes the JPEG keywords write behave as an absent
key. -/
theorem jpegKeywords_falsy (v : PyVal) (hv : v.truthy = false) :
    jpegKeywords (some v) = jpegKeywords none := by
  simp [jpegKeywords, truthyOpt, hv]

/-- A falsy present value makes the PNG keywords write behave as an absent
key. -/
theorem pngKeywords_falsy (v : PyVal) (hv : v.truthy = false) :
    pngKeywords (some v) = pngKeywords none := by
  simp [pngKeywords, hv]

/-- Claim C10: a key present with a falsy value (empty string, empty list,
`None`, `False`) is treated by both writer branches exactly like an absent
key — replacing it by `none` leaves every branch output unchanged, so no
corresponding IPTC field or text chunk is written. -/
theorem falsy_value_like_absent (m : MetadataRecord) (v : PyVal) (hv : v.truthy = false) :
    (jpegBranch { m with caption := some v } = jpegBranch { m with caption := none }) ∧
    (jpegBranch { m with keywords := some v } = jpegBranch { m with keywords := none }) ∧
    (jpegBranch { m with byline := some v } = jpegBranch { m with byline := none }) ∧
    (jpegBranch { m with credit := some v } = jpegBranch { m with credit := none }) ∧
    (jpegBranch { m with source := some v } = jpegBranch { m with source := none }) ∧
    (pngBranch { m with caption := some v } = pngBranch { m with caption := none }) ∧
    (pngBranch { m with keywords := some v } = pngBranch { m with keywords := none }) ∧
    (pngBranch { m with byline := some v } = pngBranch { m with byline := none }) ∧
    (pngBranch { m with credit := some v } = pngBranch { m with credit := none }) ∧
    (pngBranch { m with source := some v } = pngBranch { m with source := none }) := by
  have e1 := scalarField_falsy "caption/abstract" v hv
  have e2 := jpegKeywords_falsy v hv
  have e3 := scalarField_falsy "by-line" v hv
  have e4 := scalarField_falsy "credit" v hv
  have e5 := scalarField_falsy "source" v hv
  have e6 := scalarField_falsy "caption" v hv
  have e7 := pngKeywords_falsy v hv
  have e8 := scalarField_falsy "byline" v hv
  refine ⟨?_, ?_, ?_, ?_, ?_, ?_, ?_, ?_, ?_, ?_⟩ <;>
    simp [jpegBranch, pngBranch, e1, e2, e3, e4, e5, e6, e7, e8]

/-- Witness for C10: a present empty-string caption behaves exactly like an
absent caption in the JPEG branch. -/
theorem falsy_value_like_absent_witness :
    jpegBranch { MetadataRecord.empty with caption := some (PyVal.vStr "") }
      = jpegBranch { MetadataRecord.empty with caption := none } :=
  (falsy_value_like_absent MetadataRecord.empty (PyVal.vStr "") (by decide)).1
